import Mathlib


/-! Shallow embedding of the Vibecoden HA Stats coordinator
(`custom_components/vibecoden_ha_stats/coordinator.py`) and of its sensor
consumers (`sensor.py`, `binary_sensor.py`). Numeric state values and
percentages are modelled as rationals, timestamps as integers (seconds),
and the snapshot `hass.states.async_all()` as a list of entity records. -/

/-- One entry of the snapshot `hass.states.async_all()`: an entity's id, its
state string, the two attributes the coordinator reads
(`unit_of_measurement` and `friendly_name`; `none` models an absent
attribute) and its `last_changed` timestamp (`none` models a null
timestamp). -/
structure EntityState where
  entity_id : String
  state : String
  friendly_name : Option String
  unit_of_measurement : Option String
  last_changed : Option ℤ
deriving Repr, DecidableEq

/-- Numeric value of a run of decimal digit characters. -/
def digitsToNat (cs : List Char) : ℕ :=
  cs.foldl (fun n c => 10 * n + (c.toNat - 48)) 0

/-- Unsigned part of `pyFloat`: decimal digits with an optional fractional
part after one dot (`"1."` and `".5"` are accepted, `"."` and `""` are not,
as in Python). -/
def pyFloatCore (cs : List Char) : Option ℚ :=
  if cs.contains '.' then
    let ip := cs.takeWhile (· ≠ '.')
    let fp := (cs.dropWhile (· ≠ '.')).drop 1
    if (ip ≠ [] ∨ fp ≠ []) ∧ ip.all Char.isDigit ∧ fp.all Char.isDigit
        ∧ ¬ fp.contains '.' then
      some ((digitsToNat ip : ℚ) + (digitsToNat fp : ℚ) / 10 ^ fp.length)
    else none
  else if cs ≠ [] ∧ cs.all Char.isDigit then some ((digitsToNat cs : ℚ))
  else none

/-- Python `float(s)`, modelled for plain decimal literals with an optional
leading sign; exotic inputs (`"inf"`, `"nan"`, exponents, surrounding
whitespace, digit underscores) are not modelled. `none` models the
`ValueError` branch. -/
def pyFloat (s : String) : Option ℚ :=
  match s.toList with
  | '-' :: r => (pyFloatCore r).map (fun v => -v)
  | '+' :: r => pyFloatCore r
  | r => pyFloatCore r

/-- Python `str.lower()`, modelled on ASCII letters (the units and names the
coordinator lowercases are ASCII). -/
def pyLower (s : String) : String := String.mk (s.data.map Char.toLower)

/-- Python `round(q, n)` on exact rationals: round half to even. -/
def pyRound (q : ℚ) (n : ℕ) : ℚ :=
  let m : ℚ := 10 ^ n
  let f : ℤ := ⌊q * m⌋
  let r : ℚ := q * m - f
  let z : ℤ :=
    if r < 1 / 2 then f
    else if 1 / 2 < r then f + 1
    else if f % 2 = 0 then f else f + 1
  (z : ℚ) / m

/-- Per-entity body of the `_aggregate_energy` loop as one value: the amount
the entity contributes in kWh, or `none` when the loop skips it (wrong
`unit_of_measurement`, an `"unavailable"`/`"unknown"`/empty state, or
`float` raising `ValueError`). -/
def energyContribution (state : EntityState) : Option ℚ :=
  let unit := state.unit_of_measurement.getD ""
  if (pyLower unit = "kwh" ∨ pyLower unit = "wh")
      ∧ state.state ∉ (["unavailable", "unknown", ""] : List String) then
    (pyFloat state.state).map (fun value =>
      if pyLower unit = "wh" then value / 1000 else value)
  else none

/-- Loop body of `_aggregate_energy`, threading the running total and the
count of contributing entities. -/
def energyStep (acc : ℚ × ℕ) (state : EntityState) : ℚ × ℕ :=
  let unit := state.unit_of_measurement.getD ""
  if (pyLower unit = "kwh" ∨ pyLower unit = "wh")
      ∧ state.state ∉ (["unavailable", "unknown", ""] : List String) then
    match pyFloat state.state with
    | some v => (acc.1 + (if pyLower unit = "wh" then v / 1000 else v), acc.2 + 1)
    | none => acc
  else acc

/-- `VibeStatsCoordinator._aggregate_energy`: sum the current state values of
all energy (kWh/Wh) sensors, returning the rounded total and the number of
contributing entities. -/
def _aggregate_energy (all_states : List EntityState) : ℚ × ℕ :=
  let r := all_states.foldl energyStep (0, 0)
  (pyRound r.1 3, r.2)

lemma energyStep_eq (acc : ℚ × ℕ) (s : EntityState) :
    energyStep acc s =
      match energyContribution s with
      | some v => (acc.1 + v, acc.2 + 1)
      | none => acc := by
  unfold energyStep energyContribution
  by_cases hc : ((pyLower (s.unit_of_measurement.getD "") = "kwh"
        ∨ pyLower (s.unit_of_measurement.getD "") = "wh")
      ∧ s.state ∉ (["unavailable", "unknown", ""] : List String))
  · rw [if_pos hc, if_pos hc]
    cases h : pyFloat s.state <;> simp [h]
  · rw [if_neg hc, if_neg hc]

lemma foldl_energyStep (l : List EntityState) (a : ℚ) (c : ℕ) :
    l.foldl energyStep (a, c) =
      (a + (l.filterMap energyContribution).sum,
       c + (l.filterMap energyContribution).length) := by
  induction l generalizing a c with
  | nil => simp
  | cons s t ih =>
      rw [List.foldl_cons, energyStep_eq]
      cases h : energyContribution s with
      | none => simp [List.filterMap_cons, h, ih]
      | some v =>
          simp only [List.filterMap_cons, h, List.sum_cons, List.length_cons]
          rw [ih, Prod.mk.injEq]
          exact ⟨by ring, by omega⟩

/-- C1: `_aggregate_energy` returns the 3-decimal rounding of the sum of the
kWh-normalised numeric state values of exactly the eligible entities
(`unit_of_measurement` case-insensitively `"kwh"` or `"wh"`, numeric state,
with Wh values divided by 1000) together with the count of contributing
entities, and an entity that is skipped (unavailable, unknown, empty or
non-numeric state, or another unit) changes neither the total nor the
count. -/
theorem aggregate_energy_spec (states : List EntityState) :
    _aggregate_energy states
        = (pyRound ((states.filterMap energyContribution).sum) 3,
           (states.filterMap energyContribution).length)
      ∧ ∀ pre s post, states = pre ++ s :: post → energyContribution s = none →
          _aggregate_energy states = _aggregate_energy (pre ++ post) := by
  have main : ∀ l : List EntityState, _aggregate_energy l
      = (pyRound ((l.filterMap energyContribution).sum) 3,
         (l.filterMap energyContribution).length) := by
    intro l
    show (pyRound (l.foldl energyStep (0, 0)).1 3, (l.foldl energyStep (0, 0)).2)
        = _
    rw [foldl_energyStep]
    simp
  refine ⟨main states, ?_⟩
  rintro pre s post rfl hnone
  rw [main, main]
  simp [List.filterMap_append, List.filterMap_cons, hnone]

/-- Python `entity_id.startswith(p)`, on the character lists of the two
strings. -/
def pyStartswith (s p : String) : Bool := p.data.isPrefixOf s.data

/-- The `everything_off` flag computed in `_async_update_data`: no entity
whose id starts with `"light."` has state `"on"`. -/
def everything_off (all_states : List EntityState) : Bool :=
  !((all_states.filter (fun s => pyStartswith s.entity_id "light.")).any
      (fun s => s.state == "on"))

/-- C2: `everything_off` is true exactly when no light-domain entity (id
starting with `"light."`) has state `"on"`, and it is vacuously true on the
empty snapshot. -/
theorem everything_off_spec (states : List EntityState) :
    (everything_off states = true ↔
      ∀ s ∈ states, pyStartswith s.entity_id "light." = true → s.state ≠ "on")
    ∧ everything_off [] = true := by
  refine ⟨?_, rfl⟩
  simp only [everything_off, Bool.not_eq_true', List.any_eq_false,
    List.mem_filter, and_imp, beq_iff_eq]

/-- Python `entity_id.split(".")[0]`: the domain of an entity id, the part
before the first dot (the whole id when it has no dot). -/
def domainOf (eid : String) : String :=
  String.mk (eid.data.takeWhile (fun c => c ≠ '.'))

/-- One `counts[key] = counts.get(key, 0) + 1` update of an
insertion-ordered association list, the model of a Python dict of
counters. -/
def bump {α : Type} [DecidableEq α] : List (α × ℕ) → α → List (α × ℕ)
  | [], k => [(k, 1)]
  | (a, n) :: rest, k =>
      if a = k then (a, n + 1) :: rest else (a, n) :: bump rest k

/-- The keys of a counter dict, in insertion order. -/
def keysOf {α : Type} (d : List (α × ℕ)) : List α := d.map Prod.fst

/-- The counter dict a loop of `bump` updates builds over a list. -/
def tally {α : Type} [DecidableEq α] (l : List α) : List (α × ℕ) :=
  l.foldl bump []

lemma bump_keysOf {α : Type} [DecidableEq α] (d : List (α × ℕ)) (k : α) :
    keysOf (bump d k) =
      if k ∈ keysOf d then keysOf d else keysOf d ++ [k] := by
  induction d with
  | nil => simp [bump, keysOf]
  | cons p rest ih =>
      obtain ⟨a, n⟩ := p
      by_cases hak : a = k
      · subst hak
        simp [bump, keysOf]
      · simp only [bump, if_neg hak, keysOf, List.map_cons, List.mem_cons] at ih ⊢
        by_cases hk : k ∈ rest.map Prod.fst
        · simp [hk, ih, hak, Ne.symm hak]
        · simp [hk, ih, hak, Ne.symm hak]

lemma mem_keysOf_foldl_bump {α : Type} [DecidableEq α]
    (l : List α) (d : List (α × ℕ)) (k : α) :
    k ∈ keysOf (l.foldl bump d) ↔ k ∈ keysOf d ∨ k ∈ l := by
  induction l generalizing d with
  | nil => simp
  | cons a t ih =>
      rw [List.foldl_cons, ih, bump_keysOf]
      by_cases ha : a ∈ keysOf d
      · simp only [if_pos ha, List.mem_cons]
        constructor
        · rintro (h | h)
          · exact Or.inl h
          · exact Or.inr (Or.inr h)
        · rintro (h | h | h)
          · exact Or.inl h
          · exact Or.inl (h ▸ ha)
          · exact Or.inr h
      · simp only [if_neg ha, List.mem_append, List.mem_singleton, List.mem_cons]
        tauto
  
lemma nodup_keysOf_foldl_bump {α : Type} [DecidableEq α]
    (l : List α) (d : List (α × ℕ)) (h : (keysOf d).Nodup) :
    (keysOf (l.foldl bump d)).Nodup := by
  induction l generalizing d with
  | nil => exact h
  | cons a t ih =>
      rw [List.foldl_cons]
      refine ih _ ?_
      rw [bump_keysOf]
      by_cases ha : a ∈ keysOf d
      · simpa [ha] using h
      · simp only [if_neg ha]
        refine List.Nodup.append h (List.nodup_singleton a) ?_
        intro x hx hxa
        rw [List.mem_singleton] at hxa
        exact ha (hxa ▸ hx)

lemma toFinset_keysOf_tally {α : Type} [DecidableEq α] (l : List α) :
    (keysOf (tally l)).toFinset = l.toFinset := by
  ext k
  simp only [List.mem_toFinset]
  rw [tally, mem_keysOf_foldl_bump]
  simp [keysOf]

lemma length_tally {α : Type} [DecidableEq α] (l : List α) :
    (tally l).length = l.toFinset.card := by
  have hn : (keysOf (tally l)).Nodup :=
    nodup_keysOf_foldl_bump l [] (by simp [keysOf])
  have hlen : (tally l).length = (keysOf (tally l)).length := by
    simp [keysOf]
  rw [hlen, ← List.toFinset_card_of_nodup hn, toFinset_keysOf_tally]

/-- The `domain_counts` dict built by the main loop of
`_collect_core_stats`. -/
def domain_counts (all_states : List EntityState) : List (String × ℕ) :=
  tally (all_states.map (fun s => domainOf s.entity_id))

/-- `unique_domains_count` from `_collect_core_stats`:
`len(domain_counts)`. -/
def unique_domains_count (all_states : List EntityState) : ℕ :=
  (domain_counts all_states).length

/-- C5: `unique_domains_count` equals the number of distinct domains (prefix
of the entity id before its first dot) across all entity ids of the
snapshot. -/
theorem unique_domains_count_spec (states : List EntityState) :
    unique_domains_count states
      = (states.map (fun s => domainOf s.entity_id)).toFinset.card := by
  rw [unique_domains_count, domain_counts, length_tally]

/-- `DEVICE_QUOTES` from `const.py`, verbatim (the source file stores the
emoji as the double-encoded characters reproduced here). -/
def DEVICE_QUOTES : List String := [
  "I\x27m not lazy, I\x27m in power-saving mode. ğŸ”‹",
  "404: Motivation not found. ğŸ¤–",
  "I\x27ve seen things you people wouldn\x27t believe. Lights turned on at 3am. ğŸ’¡",
  "My only job is to exist and consume electricity. âš¡",
  "Have you tried turning me off and on again? ğŸ”„",
  "I am inevitable. â€” Some smart plug, probably. ğŸ”Œ",
  "Life is short. Buy more smart devices. ğŸ›’",
  "Currently pretending to be useful. Please wait... â³",
  "I\x27m a sensor. My feelings are valid. ğŸŒ¡ï¸",
  "Work smarter, not harder. That\x27s why I\x27m automated. ğŸ¤–",
  "I am the night. (Between 22:00 and 06:00.) ğŸŒ™",
  "Every day I\x27m shuffling data. ğŸ“Š",
  "Stay connected. Stay powered. Stay weird. ğŸ ",
  "Home is where the Wi-Fi connects automatically. ğŸ“¶",
  "I beep, therefore I am. ğŸ“¡"]

/-- `HOUSE_MASCOTS` from `const.py`, verbatim (same double-encoded emoji as
the source file). -/
def HOUSE_MASCOTS : List String := [
  "ğŸ¦™ Lenny the Llama",
  "ğŸ‰ Ziggy the Dragon",
  "ğŸ¦Š Finn the Fox",
  "ğŸ™ Otto the Octopus",
  "ğŸ¦‰ Ollie the Owl",
  "ğŸ¸ Freddie the Frog",
  "ğŸ¦„ Uma the Unicorn",
  "ğŸ» Bruno the Bear",
  "ğŸ¦ Rocky the Raccoon",
  "ğŸ§ Pete the Penguin",
  "ğŸ¦© Rosie the Flamingo",
  "ğŸŠ Chester the Crocodile",
  "ğŸ¦‹ Benny the Butterfly",
  "ğŸº Wally the Wolf",
  "ğŸ¦˜ Kenny the Kangaroo"]

/-- `random_daily_quote` from `_collect_fun_stats_sync`:
`DEVICE_QUOTES[day_of_year % len(DEVICE_QUOTES)]`, with the 1-based
day-of-year passed in as the wall-clock input. -/
def random_daily_quote (day_of_year : ℕ) : String :=
  DEVICE_QUOTES.getD (day_of_year % DEVICE_QUOTES.length) ""

/-- `house_mascot` from `_collect_fun_stats_sync`:
`HOUSE_MASCOTS[day_of_year % len(HOUSE_MASCOTS)]`. -/
def house_mascot (day_of_year : ℕ) : String :=
  HOUSE_MASCOTS.getD (day_of_year % HOUSE_MASCOTS.length) ""

/-- C7: the daily quote and mascot are pure functions of the day-of-year,
selecting the element at index `day mod list length` of their fixed lists,
and the selection wraps around: stepping the day by a full list length
lands on the same element. -/
theorem daily_rotation_spec (day_of_year : ℕ) :
    random_daily_quote day_of_year
        = DEVICE_QUOTES.getD (day_of_year % DEVICE_QUOTES.length) ""
    ∧ house_mascot day_of_year
        = HOUSE_MASCOTS.getD (day_of_year % HOUSE_MASCOTS.length) ""
    ∧ random_daily_quote (day_of_year + DEVICE_QUOTES.length)
        = random_daily_quote day_of_year
    ∧ house_mascot (day_of_year + HOUSE_MASCOTS.length)
        = house_mascot day_of_year := by
  refine ⟨rfl, rfl, ?_, ?_⟩
  · rw [random_daily_quote, random_daily_quote, Nat.add_mod_right]
  · rw [house_mascot, house_mascot, Nat.add_mod_right]

/-- The 24-hour activity counter of `_collect_core_stats`: entities whose
`last_changed` is not null and at least `now` minus 24 hours (times in
seconds). -/
def active_entities_24h (all_states : List EntityState) (now : ℤ) : ℕ :=
  let cutoff := now - 24 * 3600
  all_states.countP (fun s =>
    match s.last_changed with
    | some t => decide (cutoff ≤ t)
    | none => false)

/-- C8: `active_entities_24h` counts exactly the entities whose
`last_changed` timestamp is at least `now` minus 24 hours; entities with a
null `last_changed` are never counted, so a snapshot of only-null entities
counts zero. -/
theorem active_entities_24h_spec (states : List EntityState) (now : ℤ) :
    active_entities_24h states now
        = ((states.filterMap EntityState.last_changed).filter
            (fun t => now - 24 * 3600 ≤ t)).length
    ∧ ((∀ s ∈ states, s.last_changed = none) →
        active_entities_24h states now = 0) := by
  have key : ∀ (l : List EntityState) (p : ℤ → Bool),
      l.countP (fun s => match s.last_changed with
        | some t => p t
        | none => false)
        = ((l.filterMap EntityState.last_changed).filter p).length := by
    intro l p
    induction l with
    | nil => rfl
    | cons s t ih =>
        rw [List.countP_cons, List.filterMap_cons]
        cases h : s.last_changed with
        | none => simpa [h] using ih
        | some ts =>
            cases hp : p ts
            · simp [h, hp, ih, List.filter_cons]
            · simp [h, hp, ih, List.filter_cons]
  have main : active_entities_24h states now
      = ((states.filterMap EntityState.last_changed).filter
          (fun t => now - 24 * 3600 ≤ t)).length :=
    key states (fun t => decide (now - 24 * 3600 ≤ t))
  refine ⟨main, fun hall => ?_⟩
  rw [main]
  have hnil : states.filterMap EntityState.last_changed = [] :=
    List.filterMap_eq_nil_iff.mpr hall
  rw [hnil]
  rfl

/-- A value a stats dict can hold, as the sensor platforms see it:
`null` models Python `None` (also the result of a failed `.get`). -/
inductive PyVal where
  | null
  | num (q : ℚ)
  | str (s : String)
  | boolean (b : Bool)
deriving Repr, DecidableEq

/-- Python `d.get(key)` on an insertion-ordered association list modelling a
dict: `None` (here `.null`) when the key is absent. -/
def dictGet (d : List (String × PyVal)) (key : String) : PyVal :=
  match d.find? (fun p => p.1 == key) with
  | some p => p.2
  | none => .null

/-- `VibeSensor.native_value` from `sensor.py`:
`(self.coordinator.data or {}).get(section, {}).get(key)`; `data = none`
models the empty cache before the first successful refresh. -/
def native_value (data : Option (List (String × List (String × PyVal))))
    (sect key : String) : PyVal :=
  match (data.getD []).find? (fun p => p.1 == sect) with
  | some sec => dictGet sec.2 key
  | none => .null

/-- Python truthiness (`bool(value)`) of the values a stats dict holds. -/
def pyTruthy : PyVal → Bool
  | .null => false
  | .num q => decide (q ≠ 0)
  | .str s => decide (s ≠ "")
  | .boolean b => b

/-- `VibeBinarySensor.is_on` from `binary_sensor.py`: `None` (unknown state)
when the looked-up value is `None`, else `bool(value)`. -/
def is_on (data : Option (List (String × List (String × PyVal))))
    (sect key : String) : Option Bool :=
  match native_value data sect key with
  | .null => none
  | v => some (pyTruthy v)

/-- The value the cache actually stores under `{section, key}`: `none` when
the cache is empty or the section or the key is absent. -/
def storedValue (data : Option (List (String × List (String × PyVal))))
    (sect key : String) : Option PyVal :=
  match data with
  | none => none
  | some d =>
      match d.find? (fun p => p.1 == sect) with
      | none => none
      | some sec => (sec.2.find? (fun p => p.1 == key)).map Prod.snd

/-- C10: a sensor read surfaces "no data" (a `None` value, an unknown binary
state) exactly when the cache is empty, the section or key is absent, or the
stored value itself is null; a stored non-null value is passed through
unchanged, never defaulted. This holds for every `{section, key}` pair. -/
theorem no_data_is_surfaced
    (data : Option (List (String × List (String × PyVal))))
    (sect key : String) :
    (native_value data sect key = .null ↔
      storedValue data sect key = none
        ∨ storedValue data sect key = some .null)
    ∧ (∀ v, storedValue data sect key = some v →
        native_value data sect key = v)
    ∧ (is_on data sect key = none ↔
        native_value data sect key = .null)
    ∧ native_value none sect key = .null
    ∧ is_on none sect key = none := by
  have hnative : ∀ v, storedValue data sect key = some v →
      native_value data sect key = v := by
    intro v hv
    cases data with
    | none => simp [storedValue] at hv
    | some d =>
        cases hsec : d.find? (fun p => p.1 == sect) with
        | none => simp [storedValue, hsec] at hv
        | some sec =>
            cases hk : sec.2.find? (fun p => p.1 == key) with
            | none => simp [storedValue, hsec, hk] at hv
            | some p =>
                simp only [storedValue, hsec, hk, Option.map_some] at hv
                simp only [native_value, dictGet, Option.getD_some, hsec, hk]
                exact Option.some_injective _ hv
  have hnull : native_value data sect key = .null ↔
      storedValue data sect key = none
        ∨ storedValue data sect key = some .null := by
    constructor
    · intro h
      cases hs : storedValue data sect key with
      | none => exact Or.inl rfl
      | some v =>
          refine Or.inr ?_
          rw [← h, hnative v hs]
    · rintro (h | h)
      · cases data with
        | none => rfl
        | some d =>
            cases hsec : d.find? (fun p => p.1 == sect) with
            | none => simp [native_value, hsec]
            | some sec =>
                cases hk : sec.2.find? (fun p => p.1 == key) with
                | none => simp [native_value, dictGet, hsec, hk]
                | some p => simp [storedValue, hsec, hk] at h
      · exact hnative _ h
  refine ⟨hnull, hnative, ?_, rfl, rfl⟩
  cases hv : native_value data sect key <;> simp [is_on, hv, pyTruthy]

/-- Python `max(x :: xs, key=key)` as the left-to-right scan Python performs:
the running best is replaced only when a later element's key is strictly
greater, so of several maxima the first wins. Python `min` is the same scan
for the dual order. -/
def pyMax {α β : Type} [LinearOrder β] (key : α → β) (x : α) : List α → α
  | [] => x
  | a :: t => pyMax key (if key x < key a then a else x) t

lemma pyMax_mem {α β : Type} [LinearOrder β] (key : α → β) (x : α)
    (xs : List α) : pyMax key x xs ∈ x :: xs := by
  induction xs generalizing x with
  | nil => simp [pyMax]
  | cons a t ih =>
      simp only [pyMax]
      by_cases h : key x < key a
      · rw [if_pos h]
        have h2 := ih a
        simp only [List.mem_cons] at h2 ⊢
        tauto
      · rw [if_neg h]
        have h2 := ih x
        simp only [List.mem_cons] at h2 ⊢
        tauto

lemma pyMax_le {α β : Type} [LinearOrder β] (key : α → β) (x : α)
    (xs : List α) : ∀ y ∈ x :: xs, key y ≤ key (pyMax key x xs) := by
  induction xs generalizing x with
  | nil =>
      intro y hy
      simp only [List.mem_cons, List.not_mem_nil, or_false] at hy
      simp [pyMax, hy]
  | cons a t ih =>
      intro y hy
      simp only [pyMax]
      by_cases h : key x < key a
      · rw [if_pos h]
        rcases List.mem_cons.mp hy with rfl | hy2
        · exact le_trans h.le (ih _ _ (List.mem_cons_self _ _))
        · rcases List.mem_cons.mp hy2 with rfl | hy3
          · exact ih _ _ (List.mem_cons_self _ _)
          · exact ih _ y (List.mem_cons.mpr (Or.inr hy3))
      · rw [if_neg h]
        rcases List.mem_cons.mp hy with rfl | hy2
        · exact ih _ _ (List.mem_cons_self _ _)
        · rcases List.mem_cons.mp hy2 with rfl | hy3
          · exact le_trans (not_lt.mp h) (ih _ _ (List.mem_cons_self _ _))
          · exact ih _ y (List.mem_cons.mpr (Or.inr hy3))

lemma pyMax_first {α β : Type} [LinearOrder β] (key : α → β) (x : α)
    (xs : List α) :
    pyMax key x xs = x ∨
      ∃ l1 l2, xs = l1 ++ pyMax key x xs :: l2
        ∧ key x < key (pyMax key x xs)
        ∧ ∀ y ∈ l1, key y < key (pyMax key x xs) := by
  induction xs generalizing x with
  | nil => left; rfl
  | cons a t ih =>
      simp only [pyMax]
      by_cases h : key x < key a
      · rw [if_pos h]
        rcases ih a with h2 | ⟨l1, l2, he, hlt, hall⟩
        · right
          refine ⟨[], t, ?_, ?_, by simp⟩
          · rw [h2]; rfl
          · rw [h2]; exact h
        · right
          refine ⟨a :: l1, l2, ?_, lt_trans h hlt, ?_⟩
          · rw [List.cons_append]
            exact congrArg (List.cons a) he
          · intro y hy
            rcases List.mem_cons.mp hy with rfl | hy2
            · exact hlt
            · exact hall y hy2
      · rw [if_neg h]
        rcases ih x with h2 | ⟨l1, l2, he, hlt, hall⟩
        · left; exact h2
        · right
          refine ⟨a :: l1, l2, ?_, hlt, ?_⟩
          · rw [List.cons_append]
            exact congrArg (List.cons a) he
          · intro y hy
            rcases List.mem_cons.mp hy with rfl | hy2
            · exact lt_of_le_of_lt (not_lt.mp h) hlt
            · exact hall y hy2

/-- The `entity_ids` list `_collect_fun_stats_sync` builds from the
snapshot. -/
def entityIds (all_states : List EntityState) : List String :=
  all_states.map (fun s => s.entity_id)

/-- The raw `avg_entity_id_length` variable of `_collect_fun_stats_sync`:
the exact mean id length, `0.0` for an empty snapshot. -/
def avg_entity_id_length (all_states : List EntityState) : ℚ :=
  if entityIds all_states ≠ [] then
    (((entityIds all_states).map String.length).sum : ℚ)
      / ((entityIds all_states).length : ℚ)
  else 0

/-- The `avg_entity_id_length` value the fun-stats dict actually reports:
the return statement applies `round(avg_entity_id_length, 2)`. -/
def avg_entity_id_length_reported (all_states : List EntityState) : ℚ :=
  pyRound (avg_entity_id_length all_states) 2

/-- The average id length as the claim words it: the (exact) average
character length of all entity ids, `0.0` on an empty snapshot. -/
def meanEntityIdLength (all_states : List EntityState) : ℚ :=
  if all_states = [] then 0
  else (((entityIds all_states).map String.length).sum : ℚ)
    / ((entityIds all_states).length : ℚ)

/-- `longest_entity_id` of `_collect_fun_stats_sync`:
`max(entity_ids, key=len)` (the first maximum wins), `""` when the snapshot
is empty. -/
def longest_entity_id (all_states : List EntityState) : String :=
  match entityIds all_states with
  | [] => ""
  | x :: xs => pyMax (fun eid => eid.length) x xs

/-- `shortest_entity_id` of `_collect_fun_stats_sync`:
`min(entity_ids, key=len)` (the first minimum wins; Python `min` is the
`pyMax` scan for the dual order), `""` when the snapshot is empty. -/
def shortest_entity_id (all_states : List EntityState) : String :=
  match entityIds all_states with
  | [] => ""
  | x :: xs => pyMax (fun eid => OrderDual.toDual eid.length) x xs

/-- The `all_names` list `_collect_fun_stats_sync` builds: every entity's
truthy display name (`attributes.get("friendly_name") or ""`, appended only
when non-empty). -/
def all_names (all_states : List EntityState) : List String :=
  all_states.filterMap (fun s =>
    let name := s.friendly_name.getD ""
    if name = "" then none else some name)

/-- `names_with_numbers` of `_collect_fun_stats_sync`: how many display
names contain at least one digit character. -/
def names_with_numbers (all_states : List EntityState) : ℕ :=
  (all_names all_states).countP (fun name => name.data.any Char.isDigit)

/-- C6 counterexample: the reported `avg_entity_id_length` is not the exact
average of the id lengths. With ids of lengths 2, 2 and 3 the code reports
`round(7/3, 2) = 2.33`, while the average is `7/3`. -/
theorem avg_entity_id_length_cex :
    avg_entity_id_length_reported
        [⟨"ab", "on", none, none, none⟩,
         ⟨"cd", "on", none, none, none⟩,
         ⟨"efg", "on", none, none, none⟩]
      ≠ meanEntityIdLength
        [⟨"ab", "on", none, none, none⟩,
         ⟨"cd", "on", none, none, none⟩,
         ⟨"efg", "on", none, none, none⟩] := by
  have l1 : ("ab" : String).length = 2 := rfl
  have l2 : ("cd" : String).length = 2 := rfl
  have l3 : ("efg" : String).length = 3 := rfl
  have havg : avg_entity_id_length
      [⟨"ab", "on", none, none, none⟩,
       ⟨"cd", "on", none, none, none⟩,
       ⟨"efg", "on", none, none, none⟩] = 7 / 3 := by
    rw [avg_entity_id_length, if_pos (by simp [entityIds]), entityIds]
    simp only [List.map_cons, List.map_nil, List.sum_cons, List.sum_nil,
      List.length_cons, List.length_nil, l1, l2, l3]
    norm_num
  have hrep : avg_entity_id_length_reported
      [⟨"ab", "on", none, none, none⟩,
       ⟨"cd", "on", none, none, none⟩,
       ⟨"efg", "on", none, none, none⟩] = 233 / 100 := by
    rw [avg_entity_id_length_reported, havg]
    simp only [pyRound]
    norm_num [Int.fract]
  have hmean : meanEntityIdLength
      [⟨"ab", "on", none, none, none⟩,
       ⟨"cd", "on", none, none, none⟩,
       ⟨"efg", "on", none, none, none⟩] = 7 / 3 := by
    rw [meanEntityIdLength, if_neg (by simp), entityIds]
    simp only [List.map_cons, List.map_nil, List.sum_cons, List.sum_nil,
      List.length_cons, List.length_nil, l1, l2, l3]
    norm_num
  rw [hrep, hmean]
  norm_num

/-- C6 amended: the reported `avg_entity_id_length` is the average id length
rounded to 2 decimal places (`0.0` when the snapshot is empty; ids of
lengths 4 and 6 still give exactly `5.0`); `longest_entity_id` and
`shortest_entity_id` are ids of maximal resp. minimal character length with
ties won by the first such id in iteration order, and `""` on the empty
snapshot, which also reports `names_with_numbers = 0`. -/
theorem fun_length_stats_spec (states : List EntityState) :
    avg_entity_id_length_reported states
        = pyRound (meanEntityIdLength states) 2
    ∧ (states ≠ [] →
        (∃ pre post,
            entityIds states = pre ++ longest_entity_id states :: post
          ∧ ∀ eid ∈ pre, eid.length < (longest_entity_id states).length)
        ∧ ∀ eid ∈ entityIds states,
            eid.length ≤ (longest_entity_id states).length)
    ∧ (states ≠ [] →
        (∃ pre post,
            entityIds states = pre ++ shortest_entity_id states :: post
          ∧ ∀ eid ∈ pre, (shortest_entity_id states).length < eid.length)
        ∧ ∀ eid ∈ entityIds states,
            (shortest_entity_id states).length ≤ eid.length)
    ∧ (states = [] → avg_entity_id_length_reported states = 0
        ∧ longest_entity_id states = "" ∧ shortest_entity_id states = ""
        ∧ names_with_numbers states = 0)
    ∧ avg_entity_id_length_reported
        [⟨"ab.c", "on", none, none, none⟩,
         ⟨"ab.cde", "on", none, none, none⟩] = 5 := by
  refine ⟨?_, ?_, ?_, ?_, ?_⟩
  · have hone : avg_entity_id_length states = meanEntityIdLength states := by
      rw [avg_entity_id_length, meanEntityIdLength]
      by_cases h : states = []
      · subst h; simp [entityIds]
      · rw [if_pos (by simpa [entityIds] using h), if_neg h]
    rw [avg_entity_id_length_reported, hone]
  · intro hne
    cases states with
    | nil => exact absurd rfl hne
    | cons s t =>
        have hids : entityIds (s :: t) = s.entity_id :: entityIds t := rfl
        have hlong : longest_entity_id (s :: t)
            = pyMax (fun eid => eid.length) s.entity_id (entityIds t) := rfl
        constructor
        · rcases pyMax_first (fun eid => eid.length) s.entity_id (entityIds t)
            with h | ⟨l1, l2, he, hlt, hall⟩
          · refine ⟨[], entityIds t, ?_, by simp⟩
            rw [hids, hlong, h]
            rfl
          · refine ⟨s.entity_id :: l1, l2, ?_, ?_⟩
            · rw [hids, hlong, List.cons_append]
              exact congrArg (List.cons s.entity_id) he
            · intro eid hm
              rw [hlong]
              rcases List.mem_cons.mp hm with rfl | h2
              · exact hlt
              · exact hall eid h2
        · intro eid hm
          rw [hlong]
          exact pyMax_le (fun eid => eid.length) s.entity_id (entityIds t) eid hm
  · intro hne
    cases states with
    | nil => exact absurd rfl hne
    | cons s t =>
        have hids : entityIds (s :: t) = s.entity_id :: entityIds t := rfl
        have hshort : shortest_entity_id (s :: t)
            = pyMax (fun eid => OrderDual.toDual eid.length)
                s.entity_id (entityIds t) := rfl
        constructor
        · rcases pyMax_first (fun eid => OrderDual.toDual eid.length)
            s.entity_id (entityIds t) with h | ⟨l1, l2, he, hlt, hall⟩
          · refine ⟨[], entityIds t, ?_, by simp⟩
            rw [hids, hshort, h]
            rfl
          · refine ⟨s.entity_id :: l1, l2, ?_, ?_⟩
            · rw [hids, hshort, List.cons_append]
              exact congrArg (List.cons s.entity_id) he
            · intro eid hm
              rw [hshort]
              rcases List.mem_cons.mp hm with rfl | h2
              · exact OrderDual.toDual_lt_toDual.mp hlt
              · exact OrderDual.toDual_lt_toDual.mp (hall eid h2)
        · intro eid hm
          rw [hshort]
          exact OrderDual.toDual_le_toDual.mp
            (pyMax_le (fun eid => OrderDual.toDual eid.length)
              s.entity_id (entityIds t) eid hm)
  · intro h
    subst h
    refine ⟨?_, rfl, rfl, rfl⟩
    rw [avg_entity_id_length_reported]
    have h0 : avg_entity_id_length ([] : List EntityState) = 0 := rfl
    rw [h0, pyRound]
    norm_num [Int.fract]
  · have l1 : ("ab.c" : String).length = 4 := rfl
    have l2 : ("ab.cde" : String).length = 6 := rfl
    have havg : avg_entity_id_length
        [⟨"ab.c", "on", none, none, none⟩,
         ⟨"ab.cde", "on", none, none, none⟩] = 5 := by
      rw [avg_entity_id_length, if_pos (by simp [entityIds]), entityIds]
      simp only [List.map_cons, List.map_nil, List.sum_cons, List.sum_nil,
        List.length_cons, List.length_nil, l1, l2]
      norm_num
    rw [avg_entity_id_length_reported, havg, pyRound]
    norm_num [Int.fract]

/-- Python `d.get(k, 0)` on a counter dict. -/
def lookupCount {α : Type} [DecidableEq α] (d : List (α × ℕ)) (k : α) : ℕ :=
  match d.find? (fun p => decide (p.1 = k)) with
  | some p => p.2
  | none => 0

lemma bump_lookupCount {α : Type} [DecidableEq α] (d : List (α × ℕ))
    (k k' : α) :
    lookupCount (bump d k) k'
      = lookupCount d k' + if k' = k then 1 else 0 := by
  induction d with
  | nil =>
      by_cases h : k' = k
      · subst h; simp [bump, lookupCount]
      · simp [bump, lookupCount, List.find?, Ne.symm h, h]
  | cons p rest ih =>
      obtain ⟨a, n⟩ := p
      by_cases hak : a = k
      · subst hak
        by_cases h : k' = a
        · subst h; simp [bump, lookupCount, List.find?]
        · simp [bump, lookupCount, List.find?, Ne.symm h, h]
      · by_cases h : k' = a
        · subst h
          simp [bump, hak, lookupCount, List.find?, Ne.symm hak]
        · simp only [bump, if_neg hak]
          have expand : ∀ rest' : List (α × ℕ),
              lookupCount ((a, n) :: rest') k' = lookupCount rest' k' := by
            intro rest'
            simp [lookupCount, List.find?, Ne.symm h, h]
          rw [expand, expand, ih]

lemma lookupCount_foldl_bump {α : Type} [DecidableEq α] (l : List α)
    (d : List (α × ℕ)) (k : α) :
    lookupCount (l.foldl bump d) k = lookupCount d k + l.count k := by
  induction l generalizing d with
  | nil => simp
  | cons a t ih =>
      rw [List.foldl_cons, ih, bump_lookupCount, List.count_cons]
      by_cases h : k = a
      · simp [h]
        omega
      · simp [h, Ne.symm h]
      
lemma lookupCount_tally {α : Type} [DecidableEq α] (l : List α) (k : α) :
    lookupCount (tally l) k = l.count k := by
  rw [tally, lookupCount_foldl_bump]
  simp [lookupCount]

lemma find?_of_mem_nodupKeys {α : Type} [DecidableEq α]
    (d : List (α × ℕ)) (hd : (keysOf d).Nodup) (p : α × ℕ) (hp : p ∈ d) :
    d.find? (fun q => decide (q.1 = p.1)) = some p := by
  induction d with
  | nil => simp at hp
  | cons q rest ih =>
      rcases List.mem_cons.mp hp with rfl | hp2
      · rw [List.find?_cons_of_pos _ (by simp)]
      · have hq : q.1 ≠ p.1 := by
          intro he
          have hmem : p.1 ∈ keysOf rest :=
            List.mem_map.mpr ⟨p, hp2, rfl⟩
          rw [keysOf, List.map_cons] at hd
          exact (List.nodup_cons.mp hd).1 (he ▸ hmem)
        rw [List.find?_cons_of_neg _ (by simp [hq])]
        exact ih (by
          rw [keysOf, List.map_cons] at hd
          exact (List.nodup_cons.mp hd).2) hp2

lemma mem_tally_count {α : Type} [DecidableEq α] (l : List α) (p : α × ℕ)
    (hp : p ∈ tally l) : p.2 = l.count p.1 := by
  have hn : (keysOf (tally l)).Nodup :=
    nodup_keysOf_foldl_bump l [] (by simp [keysOf])
  have hf := find?_of_mem_nodupKeys (tally l) hn p hp
  have := lookupCount_tally l p.1
  rw [lookupCount, hf] at this
  exact this

lemma mem_keysOf_tally {α : Type} [DecidableEq α] (l : List α) (k : α) :
    k ∈ keysOf (tally l) ↔ k ∈ l := by
  rw [tally, mem_keysOf_foldl_bump]
  simp [keysOf]

lemma tally_eq_nil {α : Type} [DecidableEq α] (l : List α)
    (h : tally l = []) : l = [] := by
  cases l with
  | nil => rfl
  | cons a t =>
      exfalso
      have : a ∈ keysOf (tally (a :: t)) :=
        (mem_keysOf_tally (a :: t) a).mpr (List.mem_cons_self a t)
      rw [h] at this
      simp [keysOf] at this

/-- The cleaned display names `_collect_fun_stats_sync` tallies for
redundancy: `name.strip().lower()` of each display name, dropped when the
cleaned form is empty (`String.trim` models Python `str.strip()` for ASCII
whitespace). -/
def cleanedNames (all_states : List EntityState) : List String :=
  (all_names all_states).filterMap (fun name =>
    let clean := pyLower name.trim
    if clean = "" then none else some clean)

/-- The `name_freq` dict of `_collect_fun_stats_sync`. -/
def name_freq (all_states : List EntityState) : List (String × ℕ) :=
  tally (cleanedNames all_states)

/-- The escaping Python `repr` applies inside a single-quoted string: a
single quote becomes backslash-quote; every other character (the names
modelled here hold no backslashes or unprintables) stays itself. -/
def pyReprEscape (c : Char) : List Char :=
  if c = '\x27' then ['\\', '\x27'] else [c]

/-- Python `repr` of a string as the f-string `{best!r}` renders it,
modelled for names without backslashes or unprintable characters: double
quotes exactly when the name contains a single quote but no double quote;
otherwise single quotes, with every single quote escaped. -/
def pyRepr (s : String) : String :=
  if s.data.contains '\x27' ∧ ¬ s.data.contains '"' then "\"" ++ s ++ "\""
  else "\x27" ++ String.mk (s.data.flatMap pyReprEscape) ++ "\x27"

/-- The key `lambda n: (name_freq[n], -len(n))` Python's `max` uses in
`most_redundant_name`: frequency first, then shorter names first, compared
lexicographically. -/
def redundancyKey (q : String × ℕ) : ℕ ×ₗ ℤ := toLex (q.2, -(q.1.length : ℤ))

/-- `most_redundant_name` of `_collect_fun_stats_sync`:
`max(name_freq, key=lambda n: (name_freq[n], -len(n)))` reported as
`f"{best!r} (×{name_freq[best]})"` when its frequency exceeds 1, else the
fixed `"N/A"` marker. -/
def most_redundant_name (all_states : List EntityState) : String :=
  match name_freq all_states with
  | [] => "N/A"
  | p :: ps =>
      let best := pyMax redundancyKey p ps
      if 1 < best.2 then
        pyRepr best.1 ++ " (×" ++ toString best.2 ++ ")"
      else "N/A"

/-- How often a cleaned display name occurs across the snapshot. -/
def nameCount (all_states : List EntityState) (n : String) : ℕ :=
  (cleanedNames all_states).count n

lemma pyRepr_format_ne (s b c d : String) :
    pyRepr s ++ b ++ c ++ d ≠ "N/A" := by
  intro he
  have hd := congrArg String.data he
  rw [pyRepr] at hd
  by_cases h : s.data.contains '\x27' ∧ ¬ s.data.contains '"'
  · rw [if_pos h] at hd
    have hd2 : ('"' :: ((((s.data ++ ['"']) ++ b.data) ++ c.data) ++ d.data)
        : List Char) = ['N', '/', 'A'] := hd
    have h2 := congrArg List.head? hd2
    simp only [List.head?_cons] at h2
    exact absurd (Option.some.inj h2) (by decide)
  · rw [if_neg h] at hd
    have hd2 : ('\x27' :: ((((s.data.flatMap pyReprEscape ++ ['\x27'])
        ++ b.data) ++ c.data) ++ d.data) : List Char) = ['N', '/', 'A'] := hd
    have h2 := congrArg List.head? hd2
    simp only [List.head?_cons] at h2
    exact absurd (Option.some.inj h2) (by decide)

lemma pyRepr_both_quotes :
    pyRepr "bob\x27s \"office\" light"
      = "\x27bob\\\x27s \"office\" light\x27" := by
  rw [pyRepr, if_neg (by decide)]
  rfl

/-- C3: `most_redundant_name` is the fixed `"N/A"` marker exactly when no
cleaned (trimmed, lowercased) display name occurs more than once; otherwise
it reports a cleaned name whose frequency is maximal (the shortest among
names of that frequency), formatted as the quoted name followed by `×` and
its occurrence count (three entities sharing one cleaned name yield `×3`). -/
theorem most_redundant_name_spec (states : List EntityState) :
    (most_redundant_name states = "N/A" ↔ ∀ n, nameCount states n ≤ 1)
    ∧ ((∃ n, 1 < nameCount states n) →
        ∃ best, 1 < nameCount states best
          ∧ (∀ n, nameCount states n ≤ nameCount states best)
          ∧ (∀ n, nameCount states n = nameCount states best →
              best.length ≤ n.length)
          ∧ most_redundant_name states
              = pyRepr best ++ " (×"
                  ++ toString (nameCount states best) ++ ")") := by
  cases hnf : name_freq states with
  | nil =>
      have hLnil : cleanedNames states = [] := tally_eq_nil _ hnf
      have hcount : ∀ n, nameCount states n = 0 := by
        intro n
        rw [nameCount, hLnil]
        rfl
      constructor
      · constructor
        · intro _ n
          rw [hcount n]
          omega
        · intro _
          simp [most_redundant_name, hnf]
      · rintro ⟨n, hn⟩
        rw [hcount n] at hn
        omega
  | cons p ps =>
      generalize hbest : pyMax redundancyKey p ps = best
      have hmem : best ∈ p :: ps := hbest ▸ pyMax_mem redundancyKey p ps
      have hmem2 : best ∈ name_freq states := by
        rw [hnf]
        exact hmem
      have hout : most_redundant_name states
          = if 1 < best.2 then
              pyRepr best.1 ++ " (×" ++ toString best.2 ++ ")"
            else "N/A" := by
        simp only [most_redundant_name, hnf]
        rw [hbest]
      have hbcount : best.2 = nameCount states best.1 := by
        rw [nameCount]
        exact mem_tally_count _ best hmem2
      have hinL : best.1 ∈ cleanedNames states := by
        have hk : best.1 ∈ keysOf (name_freq states) :=
          List.mem_map.mpr ⟨best, hmem2, rfl⟩
        exact (mem_keysOf_tally _ _).mp hk
      have hpos : 1 ≤ best.2 := by
        rw [hbcount, nameCount]
        exact List.one_le_count_iff.mpr hinL
      have hpair : ∀ n, n ∈ cleanedNames states →
          ∃ q ∈ (p :: ps : List (String × ℕ)),
            q.1 = n ∧ q.2 = nameCount states n := by
        intro n hnL
        have h1 : n ∈ keysOf (name_freq states) :=
          (mem_keysOf_tally _ n).mpr hnL
        obtain ⟨q, hq, hq1⟩ := List.mem_map.mp h1
        refine ⟨q, by rw [hnf] at hq; exact hq, hq1, ?_⟩
        rw [← hq1, nameCount]
        exact mem_tally_count _ q hq
      have hmax : ∀ n, nameCount states n ≤ best.2 := by
        intro n
        by_cases hnL : n ∈ cleanedNames states
        · obtain ⟨q, hqmem, hq1, hq2⟩ := hpair n hnL
          have hle : redundancyKey q ≤ redundancyKey best := by
            rw [← hbest]
            exact pyMax_le redundancyKey p ps q hqmem
          simp only [redundancyKey] at hle
          rw [Prod.Lex.le_iff] at hle
          dsimp only at hle
          rcases hle with h | ⟨h, _⟩
          · omega
          · omega
        · rw [nameCount, List.count_eq_zero.mpr hnL]
          omega
      have htie : ∀ n, nameCount states n = best.2 →
          best.1.length ≤ n.length := by
        intro n hn
        by_cases hnL : n ∈ cleanedNames states
        · obtain ⟨q, hqmem, hq1, hq2⟩ := hpair n hnL
          have hle : redundancyKey q ≤ redundancyKey best := by
            rw [← hbest]
            exact pyMax_le redundancyKey p ps q hqmem
          simp only [redundancyKey] at hle
          rw [Prod.Lex.le_iff] at hle
          dsimp only at hle
          rcases hle with h | ⟨_, h2⟩
          · omega
          · rw [hq1] at h2
            omega
        · rw [nameCount, List.count_eq_zero.mpr hnL] at hn
          omega
      by_cases hgt : 1 < best.2
      · rw [hout, if_pos hgt]
        refine ⟨⟨fun habs => absurd habs (pyRepr_format_ne best.1 _ _ _),
          fun hall => ?_⟩, fun _ => ?_⟩
        · exfalso
          have h1 := hall best.1
          rw [← hbcount] at h1
          omega
        · refine ⟨best.1, by rw [← hbcount]; exact hgt,
            fun n => by rw [← hbcount]; exact hmax n,
            fun n hn => htie n (hn.trans hbcount.symm), ?_⟩
          rw [← hbcount]
      · rw [hout, if_neg hgt]
        have hall : ∀ n, nameCount states n ≤ 1 := by
          intro n
          have := hmax n
          omega
        refine ⟨⟨fun _ => hall, fun _ => rfl⟩, ?_⟩
        rintro ⟨n, hn⟩
        exact absurd (hall n) (by omega)

/-- Membership in the `_EMOJI_RE` character class of `coordinator.py`: the
fixed emoji code-point ranges. -/
def isEmojiChar (c : Char) : Bool :=
  decide ((0x1F600 ≤ c.toNat ∧ c.toNat ≤ 0x1F64F)
    ∨ (0x1F300 ≤ c.toNat ∧ c.toNat ≤ 0x1F5FF)
    ∨ (0x1F680 ≤ c.toNat ∧ c.toNat ≤ 0x1F6FF)
    ∨ (0x1F700 ≤ c.toNat ∧ c.toNat ≤ 0x1F77F)
    ∨ (0x1F780 ≤ c.toNat ∧ c.toNat ≤ 0x1F7FF)
    ∨ (0x1F800 ≤ c.toNat ∧ c.toNat ≤ 0x1F8FF)
    ∨ (0x1F900 ≤ c.toNat ∧ c.toNat ≤ 0x1F9FF)
    ∨ (0x1FA00 ≤ c.toNat ∧ c.toNat ≤ 0x1FA6F)
    ∨ (0x1FA70 ≤ c.toNat ∧ c.toNat ≤ 0x1FAFF)
    ∨ (0x2600 ≤ c.toNat ∧ c.toNat ≤ 0x26FF)
    ∨ (0x2700 ≤ c.toNat ∧ c.toNat ≤ 0x27BF))

/-- The emoji characters of one display name, in order: the concatenation of
all `_EMOJI_RE` matches of the name (the regex is a single character class
under `+`, so its maximal matches concatenate to exactly the class
characters of the name, in order). -/
def emojiOf (name : String) : List Char := name.data.filter isEmojiChar

/-- The loop state of the emoji pass of `_collect_fun_stats_sync`:
`(emoji_counts, total_chars, emoji_chars)` after scanning every display
name. -/
def emojiFold (all_states : List EntityState) : List (Char × ℕ) × ℕ × ℕ :=
  (all_names all_states).foldl
    (fun acc name =>
      ((emojiOf name).foldl bump acc.1,
       acc.2.1 + name.length,
       acc.2.2 + (emojiOf name).length))
    ([], 0, 0)

/-- `most_used_emoji` of `_collect_fun_stats_sync`: Python
`max(emoji_counts, key=lambda e: emoji_counts[e])` as a one-character
string, or the fixed placeholder `"🤷"` when no emoji was counted. -/
def most_used_emoji (all_states : List EntityState) : String :=
  match (emojiFold all_states).1 with
  | [] => "🤷"
  | p :: ps => String.singleton (pyMax (fun q : Char × ℕ => q.2) p ps).1

/-- `emoji_density` of `_collect_fun_stats_sync`:
`round(emoji_chars / total_chars * 100, 2)`, or `0.0` when the names hold no
characters at all. -/
def emoji_density (all_states : List EntityState) : ℚ :=
  let total := (emojiFold all_states).2.1
  let emoji := (emojiFold all_states).2.2
  if 0 < total then pyRound ((emoji : ℚ) / (total : ℚ) * 100) 2 else 0

/-- Every emoji character of every display name, in scan order. -/
def emojiScan (all_states : List EntityState) : List Char :=
  ((all_names all_states).map emojiOf).flatten

/-- The total number of characters across all display names. -/
def totalNameChars (all_states : List EntityState) : ℕ :=
  ((all_names all_states).map String.length).sum

/-- The distinct elements of a list at their first occurrences, in order:
the iteration order of a Python dict filled by a tally loop (`seen` holds
the keys already present). -/
def firstOccurrences {α : Type} [DecidableEq α] (seen : List α) :
    List α → List α
  | [] => []
  | a :: t =>
      if a ∈ seen then firstOccurrences seen t
      else a :: firstOccurrences (a :: seen) t

lemma firstOccurrences_congr {α : Type} [DecidableEq α] (s1 s2 : List α)
    (h : ∀ x, x ∈ s1 ↔ x ∈ s2) (l : List α) :
    firstOccurrences s1 l = firstOccurrences s2 l := by
  induction l generalizing s1 s2 with
  | nil => rfl
  | cons a t ih =>
      simp only [firstOccurrences]
      by_cases ha : a ∈ s1
      · rw [if_pos ha, if_pos ((h a).mp ha)]
        exact ih s1 s2 h
      · rw [if_neg ha, if_neg (fun hc => ha ((h a).mpr hc))]
        exact congrArg (List.cons a)
          (ih _ _ (fun x => by simp [List.mem_cons, h x]))

lemma keysOf_foldl_bump_firstOcc {α : Type} [DecidableEq α] (l : List α)
    (d : List (α × ℕ)) :
    keysOf (l.foldl bump d) = keysOf d ++ firstOccurrences (keysOf d) l := by
  induction l generalizing d with
  | nil => simp [firstOccurrences]
  | cons a t ih =>
      rw [List.foldl_cons, ih]
      by_cases ha : a ∈ keysOf d
      · rw [bump_keysOf, if_pos ha]
        simp only [firstOccurrences, if_pos ha]
      · rw [bump_keysOf, if_neg ha]
        simp only [firstOccurrences, if_neg ha]
        rw [List.append_assoc, List.singleton_append]
        refine congrArg (keysOf d ++ ·) (congrArg (List.cons a) ?_)
        exact firstOccurrences_congr _ _
          (fun x => by simp [List.mem_append, List.mem_cons, or_comm]) t

lemma emojiFold_general (names : List String) (d : List (Char × ℕ))
    (t e : ℕ) :
    names.foldl
        (fun acc name =>
          ((emojiOf name).foldl bump acc.1,
           acc.2.1 + name.length,
           acc.2.2 + (emojiOf name).length))
        (d, t, e)
      = ((names.map emojiOf).flatten.foldl bump d,
         t + (names.map String.length).sum,
         e + ((names.map emojiOf).flatten).length) := by
  induction names generalizing d t e with
  | nil => simp
  | cons n rest ih =>
      rw [List.foldl_cons, ih]
      simp only [List.map_cons, List.flatten_cons, List.foldl_append,
        List.sum_cons, List.length_append, Prod.mk.injEq]
      exact ⟨trivial, by omega, by omega⟩

lemma emojiFold_eq (states : List EntityState) :
    emojiFold states
      = (tally (emojiScan states), totalNameChars states,
         (emojiScan states).length) := by
  rw [emojiFold, emojiFold_general, tally, emojiScan, totalNameChars]
  simp

/-- C4: `most_used_emoji` is the placeholder `"🤷"` when no emoji character
occurs in any display name; otherwise it is a single emoji character of
maximal tally, the first in dict-iteration order (order of first occurrence
in the scan) to reach that maximal count; `emoji_density` is
`(emoji characters / name characters) × 100` rounded to 2 decimals, and
`0.0` when no display names are present. -/
theorem most_used_emoji_spec (states : List EntityState) :
    (emojiScan states = [] → most_used_emoji states = "🤷")
    ∧ (emojiScan states ≠ [] →
        ∃ c, most_used_emoji states = String.singleton c
          ∧ c ∈ emojiScan states
          ∧ (∀ d, (emojiScan states).count d ≤ (emojiScan states).count c)
          ∧ ∃ pre post,
              firstOccurrences [] (emojiScan states) = pre ++ c :: post
              ∧ ∀ d ∈ pre,
                  (emojiScan states).count d < (emojiScan states).count c)
    ∧ (all_names states = [] → emoji_density states = 0)
    ∧ (0 < totalNameChars states →
        emoji_density states
          = pyRound (((emojiScan states).length : ℚ)
              / (totalNameChars states : ℚ) * 100) 2) := by
  have h1 : (emojiFold states).1 = tally (emojiScan states) := by
    rw [emojiFold_eq]
  refine ⟨?_, ?_, ?_, ?_⟩
  · intro hscan
    rw [most_used_emoji]
    rw [h1, hscan]
    rfl
  · intro hscan
    cases htl : tally (emojiScan states) with
    | nil => exact absurd (tally_eq_nil _ htl) hscan
    | cons p ps =>
        generalize hbest : pyMax (fun q : Char × ℕ => q.2) p ps = best
        have hout : most_used_emoji states = String.singleton best.1 := by
          rw [most_used_emoji, h1, htl]
          show String.singleton (pyMax (fun q : Char × ℕ => q.2) p ps).1
              = String.singleton best.1
          rw [hbest]
        have hmem : best ∈ p :: ps := hbest ▸ pyMax_mem _ p ps
        have hmem2 : best ∈ tally (emojiScan states) := by
          rw [htl]
          exact hmem
        have hbcount : best.2 = (emojiScan states).count best.1 :=
          mem_tally_count _ best hmem2
        have hinL : best.1 ∈ emojiScan states := by
          have hk : best.1 ∈ keysOf (tally (emojiScan states)) :=
            List.mem_map.mpr ⟨best, hmem2, rfl⟩
          exact (mem_keysOf_tally _ _).mp hk
        have hpair : ∀ d, d ∈ emojiScan states →
            ∃ q ∈ (p :: ps : List (Char × ℕ)),
              q.1 = d ∧ q.2 = (emojiScan states).count d := by
          intro d hdL
          have hm : d ∈ keysOf (tally (emojiScan states)) :=
            (mem_keysOf_tally _ d).mpr hdL
          obtain ⟨q, hq, hq1⟩ := List.mem_map.mp hm
          refine ⟨q, by rw [htl] at hq; exact hq, hq1, ?_⟩
          rw [← hq1]
          exact mem_tally_count _ q hq
        have hmax : ∀ d, (emojiScan states).count d
            ≤ (emojiScan states).count best.1 := by
          intro d
          rw [← hbcount]
          by_cases hdL : d ∈ emojiScan states
          · obtain ⟨q, hqmem, hq1, hq2⟩ := hpair d hdL
            have hle : q.2 ≤ best.2 := by
              rw [← hbest]
              exact pyMax_le (fun q : Char × ℕ => q.2) p ps q hqmem
            omega
          · rw [List.count_eq_zero.mpr hdL]
            omega
        have hf := pyMax_first (fun q : Char × ℕ => q.2) p ps
        rw [hbest] at hf
        have hdec : ∃ L1 L2, (p :: ps : List (Char × ℕ)) = L1 ++ best :: L2
            ∧ ∀ q ∈ L1, q.2 < best.2 := by
          rcases hf with h | ⟨l1, l2, he, hlt, hall⟩
          · exact ⟨[], ps, by simp [h], by simp⟩
          · refine ⟨p :: l1, l2, ?_, ?_⟩
            · rw [List.cons_append]
              exact congrArg (List.cons p) he
            · intro q hq
              rcases List.mem_cons.mp hq with rfl | hq2
              · exact hlt
              · exact hall q hq2
        obtain ⟨L1, L2, hLeq, hL1⟩ := hdec
        refine ⟨best.1, hout, hinL, hmax, keysOf L1, keysOf L2, ?_, ?_⟩
        · have hko : keysOf (tally (emojiScan states))
              = firstOccurrences [] (emojiScan states) := by
            rw [tally, keysOf_foldl_bump_firstOcc]
            rfl
          rw [← hko, htl, hLeq, keysOf, List.map_append, List.map_cons]
          rfl
        · intro d hd
          obtain ⟨q, hqL1, hq1⟩ := List.mem_map.mp hd
          have hqmem : q ∈ tally (emojiScan states) := by
            rw [htl, hLeq]
            exact List.mem_append.mpr (Or.inl hqL1)
          have hqc : q.2 = (emojiScan states).count q.1 :=
            mem_tally_count _ q hqmem
          have hqlt := hL1 q hqL1
          rw [← hbcount, ← hq1]
          omega
  · intro hnames
    have h2 : emojiFold states = ([], 0, 0) := by
      rw [emojiFold, hnames]
      rfl
    rw [emoji_density, h2]
    simp
  · intro htot
    rw [emoji_density]
    rw [emojiFold_eq]
    rw [if_pos htot]

/-- `POKEMON_NAMES` from `const.py`, verbatim. -/
def POKEMON_NAMES : List String := [
  "bulbasaur", "ivysaur", "venusaur", "charmander", "charmeleon", "charizard",
  "squirtle", "wartortle", "blastoise", "caterpie", "metapod", "butterfree",
  "weedle", "kakuna", "beedrill", "pidgey", "pidgeotto", "pidgeot", "rattata",
  "raticate", "spearow", "fearow", "ekans", "arbok", "pikachu", "raichu",
  "sandshrew", "sandslash", "nidoran", "nidorina", "nidoqueen", "nidorino",
  "nidoking", "clefairy", "clefable", "vulpix", "ninetales", "jigglypuff",
  "wigglytuff", "zubat", "golbat", "oddish", "gloom", "vileplume", "paras",
  "parasect", "venonat", "venomoth", "diglett", "dugtrio", "meowth", "persian",
  "psyduck", "golduck", "mankey", "primeape", "growlithe", "arcanine",
  "poliwag", "poliwhirl", "poliwrath", "abra", "kadabra", "alakazam", "machop",
  "machoke", "machamp", "bellsprout", "weepinbell", "victreebel", "tentacool",
  "tentacruel", "geodude", "graveler", "golem", "ponyta", "rapidash",
  "slowpoke", "slowbro", "magnemite", "magneton", "farfetchd", "doduo",
  "dodrio", "seel", "dewgong", "grimer", "muk", "shellder", "cloyster",
  "gastly", "haunter", "gengar", "onix", "drowzee", "hypno", "krabby",
  "kingler", "voltorb", "electrode", "exeggcute", "exeggutor", "cubone",
  "marowak", "hitmonlee", "hitmonchan", "lickitung", "koffing", "weezing",
  "rhyhorn", "rhydon", "chansey", "tangela", "kangaskhan", "horsea", "seadra",
  "goldeen", "seaking", "staryu", "starmie", "mrmime", "scyther", "jynx",
  "electabuzz", "magmar", "pinsir", "tauros", "magikarp", "gyarados",
  "lapras", "ditto", "eevee", "vaporeon", "jolteon", "flareon", "porygon",
  "omanyte", "omastar", "kabuto", "kabutops", "aerodactyl", "snorlax",
  "articuno", "zapdos", "moltres", "dratini", "dragonair", "dragonite",
  "mewtwo", "mew"]

/-- `devices_named_after_pokemon` of `_collect_fun_stats_sync`: display
names with any Pokémon name as a case-insensitive substring (Python
`pokemon in name.lower()`). -/
def devices_named_after_pokemon (all_states : List EntityState) : ℕ :=
  (all_names all_states).countP (fun name =>
    POKEMON_NAMES.any (fun pokemon =>
      decide (pokemon.data.IsInfix (pyLower name).data)))

/-- The dict `_collect_core_stats` returns. -/
structure CoreStats where
  total_entities : ℕ
  total_devices : ℕ
  disabled_entities : ℕ
  integrations_count : ℕ
  unique_domains_count : ℕ
  domain_counts : List (String × ℕ)
  unavailable_count : ℕ
  unknown_count : ℕ
  automation_count : ℕ
  script_count : ℕ
  scene_count : ℕ
  light_count : ℕ
  switch_count : ℕ
  binary_sensor_count : ℕ
  sensor_count : ℕ
  person_count : ℕ
  camera_count : ℕ
  media_player_count : ℕ
  cover_count : ℕ
  climate_count : ℕ
  lights_on : ℕ
  uptime_days : ℤ
  uptime_hours : ℚ
  active_entities_24h : ℕ
  host_cpu_pct : Option ℚ
  host_ram_pct : Option ℚ
  host_disk_pct : Option ℚ
  energy_24h_kwh : ℚ
  energy_entity_count : ℕ
deriving Repr

/-- `VibeStatsCoordinator._collect_core_stats`. The external collaborators
are explicit inputs: the device-registry and entity-registry lookups and the
host-telemetry read are `Except`-valued (`error` models the guarded call
raising), `boot` is psutil's boot time (`none` models psutil unavailable),
`energyOk = false` models `_aggregate_energy` raising inside its guard, and
`now` is the wall clock in seconds. Every guarded sub-aggregation falls back
to its documented default when it fails. -/
def _collect_core_stats (all_states : List EntityState)
    (devReg entReg : Except Unit ℕ) (integrations : ℕ) (boot : Option ℤ)
    (enable_host_telemetry : Bool) (telemetry : Except Unit (ℚ × ℚ × ℚ))
    (energyOk : Bool) (now : ℤ) : CoreStats :=
  let dc := domain_counts all_states
  let host : Option ℚ × Option ℚ × Option ℚ :=
    if enable_host_telemetry then
      match telemetry with
      | .ok (cpu, ram, disk) => (some cpu, some ram, some disk)
      | .error _ => (none, none, none)
    else (none, none, none)
  let energy : ℚ × ℕ :=
    if energyOk then _aggregate_energy all_states else (0, 0)
  { total_entities := all_states.length
    total_devices := match devReg with | .ok n => n | .error _ => 0
    disabled_entities := match entReg with | .ok n => n | .error _ => 0
    integrations_count := integrations
    unique_domains_count := dc.length
    domain_counts := dc
    unavailable_count := all_states.countP (fun s => s.state == "unavailable")
    unknown_count := all_states.countP (fun s => s.state == "unknown")
    automation_count := lookupCount dc "automation"
    script_count := lookupCount dc "script"
    scene_count := lookupCount dc "scene"
    light_count := lookupCount dc "light"
    switch_count := lookupCount dc "switch"
    binary_sensor_count := lookupCount dc "binary_sensor"
    sensor_count := lookupCount dc "sensor"
    person_count := lookupCount dc "person"
    camera_count := lookupCount dc "camera"
    media_player_count := lookupCount dc "media_player"
    cover_count := lookupCount dc "cover"
    climate_count := lookupCount dc "climate"
    lights_on := all_states.countP
      (fun s => pyStartswith s.entity_id "light." && s.state == "on")
    uptime_days := match boot with
      | none => 0
      | some b => max 0 ((now - b).fdiv 86400)
    uptime_hours := match boot with
      | none => 0
      | some b => pyRound (max 0 (((now - b : ℤ) : ℚ) / 3600)) 1
    active_entities_24h := active_entities_24h all_states now
    host_cpu_pct := host.1
    host_ram_pct := host.2.1
    host_disk_pct := host.2.2
    energy_24h_kwh := energy.1
    energy_entity_count := energy.2 }

/-- The dict `_collect_fun_stats_sync` returns (the reported
`avg_entity_id_length` is the rounded one). -/
structure FunStats where
  most_used_emoji : String
  avg_entity_id_length : ℚ
  longest_entity_id : String
  shortest_entity_id : String
  devices_named_after_pokemon : ℕ
  emoji_density : ℚ
  most_redundant_name : String
  names_with_numbers : ℕ
  random_daily_quote : String
  house_mascot : String
  everything_off : Bool
deriving Repr

/-- `VibeStatsCoordinator._collect_fun_stats_sync`, assembling the fun
metrics from the snapshot, the pre-computed `everything_off` flag and the
current day-of-year. -/
def _collect_fun_stats_sync (all_states : List EntityState)
    (everything_off : Bool) (day_of_year : ℕ) : FunStats :=
  { most_used_emoji := most_used_emoji all_states
    avg_entity_id_length := avg_entity_id_length_reported all_states
    longest_entity_id := longest_entity_id all_states
    shortest_entity_id := shortest_entity_id all_states
    devices_named_after_pokemon := devices_named_after_pokemon all_states
    emoji_density := emoji_density all_states
    most_redundant_name := most_redundant_name all_states
    names_with_numbers := names_with_numbers all_states
    random_daily_quote := random_daily_quote day_of_year
    house_mascot := house_mascot day_of_year
    everything_off := everything_off }

/-- The `{"core": ..., "fun": ...}` dict a successful refresh returns
(`fun_stats = none` models the empty `fun` dict when fun stats are
disabled). -/
structure UpdateResult where
  core : CoreStats
  fun_stats : Option FunStats
deriving Repr

/-- `VibeStatsCoordinator._async_update_data`: the snapshot capture is an
`Except`-valued input (its `error` models `hass.states.async_all()` or any
other unguarded step raising); on failure the whole refresh surfaces
`UpdateFailed` with the wrapped message, on success a complete result is
assembled from the guarded sub-aggregations. -/
def _async_update_data (snapshot : Except String (List EntityState))
    (devReg entReg : Except Unit ℕ) (integrations : ℕ) (boot : Option ℤ)
    (enable_host_telemetry : Bool) (telemetry : Except Unit (ℚ × ℚ × ℚ))
    (energyOk : Bool) (now : ℤ) (enable_fun_stats : Bool)
    (day_of_year : ℕ) : Except String UpdateResult :=
  match snapshot with
  | .error msg => .error ("Error updating VibeStats data: " ++ msg)
  | .ok states =>
      .ok { core := _collect_core_stats states devReg entReg integrations
              boot enable_host_telemetry telemetry energyOk now
            fun_stats :=
              if enable_fun_stats then
                some (_collect_fun_stats_sync states (everything_off states)
                  day_of_year)
              else none }

/-- C9: when the snapshot capture succeeds, the refresh always produces a
full result, whatever the guarded sub-aggregations do — a failing device
registry lookup yields `total_devices = 0`, a failing entity registry
lookup yields `disabled_entities = 0`, failing host telemetry yields null
CPU/RAM/disk, and a failing energy aggregation yields a `0.0` total with
contributing count `0`; only a failing snapshot capture fails the whole
refresh, surfaced as the wrapped update failure. -/
theorem error_policy_spec (snapshot : Except String (List EntityState))
    (devReg entReg : Except Unit ℕ) (integrations : ℕ) (boot : Option ℤ)
    (eht : Bool) (telemetry : Except Unit (ℚ × ℚ × ℚ)) (energyOk : Bool)
    (now : ℤ) (eff : Bool) (day : ℕ) :
    (∀ states, snapshot = .ok states →
      ∃ r, _async_update_data snapshot devReg entReg integrations boot eht
            telemetry energyOk now eff day = .ok r
        ∧ (devReg = .error () → r.core.total_devices = 0)
        ∧ (entReg = .error () → r.core.disabled_entities = 0)
        ∧ (telemetry = .error () → r.core.host_cpu_pct = none
            ∧ r.core.host_ram_pct = none ∧ r.core.host_disk_pct = none)
        ∧ (energyOk = false → r.core.energy_24h_kwh = 0
            ∧ r.core.energy_entity_count = 0))
    ∧ (∀ msg, snapshot = .error msg →
        _async_update_data snapshot devReg entReg integrations boot eht
            telemetry energyOk now eff day
          = .error ("Error updating VibeStats data: " ++ msg)) := by
  constructor
  · rintro states rfl
    refine ⟨_, rfl, ?_, ?_, ?_, ?_⟩
    · rintro rfl
      rfl
    · rintro rfl
      rfl
    · rintro rfl
      refine ⟨?_, ?_, ?_⟩ <;>
        · simp only [_collect_core_stats]
          cases eht <;> rfl
    · rintro rfl
      refine ⟨?_, ?_⟩ <;> rfl
  · rintro msg rfl
    rfl
